import Mathlib

/-!
Shallow embedding of `src/examples/golang_prom_metrics/main.go`.

The program registers a Prometheus counter `requests_total` and a histogram
`request_duration_seconds`, starts a background loop that every cycle
increments the counter, observes the current wall-clock time (in fractional
seconds) into the histogram and sleeps 5 seconds, and serves the metrics on
`GET /metrics` at port 8080.

The instrument semantics (Counter.Inc, Histogram.Observe, the registry and
the exposition handler) live in the `prometheus/client_golang` library, which
is not part of this repository's sources; those definitions are modelled from
the specification and are marked as such in their doc comments.  Everything
taken directly from `main.go` cites its lines.
-/

/-- Modelled from the spec: a Counter is a single monotonically non-decreasing
numeric value identified by a fixed name and help text, mutated only by
increment (`prometheus.NewCounter` is library code outside `src/`). -/
structure Counter where
  name : String
  help : String
  value : ℚ
deriving DecidableEq

/-- Modelled from the spec: `Counter.Inc` adds exactly 1 to the value. -/
def Counter.inc (c : Counter) : Counter :=
  { c with value := c.value + 1 }

/-- Modelled from the spec: a Histogram is a distribution summarized by a
fixed list of upper-bound bucket boundaries, the cumulative count exposed for
each boundary, a running sum and a total count (`prometheus.NewHistogram` is
library code outside `src/`). -/
structure Histogram where
  name : String
  help : String
  boundaries : List ℚ
  bucketCounts : List ℕ
  sum : ℚ
  count : ℕ
deriving DecidableEq

/-- Modelled from the spec: observing a value `v` adds 1 to the cumulative
count of every bucket whose upper bound is ≥ `v`, leaves buckets with bound
< `v` unchanged, and adds `v` to the running sum and 1 to the total count. -/
def Histogram.observe (h : Histogram) (v : ℚ) : Histogram :=
  { h with
    bucketCounts :=
      List.zipWith (fun b c => if v ≤ b then c + 1 else c) h.boundaries h.bucketCounts
    sum := h.sum + v
    count := h.count + 1 }

/-- Modelled from the spec: `prometheus.DefBuckets`, the conventional default
bucket-boundary set spanning 0.005 to 10 (`main.go` line 20 selects it). -/
def DefBuckets : List ℚ :=
  [1/200, 1/100, 1/40, 1/20, 1/10, 1/4, 1/2, 1, 5/2, 5, 10]

/-- The counter `requests_total` as constructed in `main.go` lines 13-16,
with initial value 0. -/
def requestsTotal : Counter :=
  { name := "requests_total", help := "Total number of requests", value := 0 }

/-- The histogram `request_duration_seconds` as constructed in `main.go`
lines 17-21, with the default buckets and all counts initially 0. -/
def requestDuration : Histogram :=
  { name := "request_duration_seconds"
    help := "Duration of requests in seconds"
    boundaries := DefBuckets
    bucketCounts := List.replicate DefBuckets.length 0
    sum := 0
    count := 0 }

/-- The shared mutable state of the program: the two registered instruments. -/
structure AppState where
  requestsTotal : Counter
  requestDuration : Histogram
deriving DecidableEq

/-- The state at process start, before any update cycle has run. -/
def initialState : AppState :=
  ⟨requestsTotal, requestDuration⟩

/-- The observed value of one cycle, `float64(time.Now().UnixNano()) / 1e9`
(`main.go` line 32): the wall clock in fractional seconds, given the wall
clock in nanoseconds since the Unix epoch. -/
def observedSeconds (nowNanos : ℤ) : ℚ :=
  (nowNanos : ℚ) / 10 ^ 9

/-- One iteration of the `updateMetrics` loop body (`main.go` lines 31-32):
increment `requestsTotal` by 1, then observe the current wall clock in
fractional seconds into `requestDuration`. -/
def updateCycle (nowNanos : ℤ) (s : AppState) : AppState :=
  { requestsTotal := s.requestsTotal.inc
    requestDuration := s.requestDuration.observe (observedSeconds nowNanos) }

/-- Run the loop body once per element of `ts`, each element being the wall
clock (in nanoseconds) read by that cycle. -/
def runCycles (ts : List ℤ) (s : AppState) : AppState :=
  ts.foldl (fun s t => updateCycle t s) s

/-- The fixed sleep of each cycle, `time.Sleep(5 * time.Second)`
(`main.go` line 33), in seconds. -/
def sleepSeconds : ℕ := 5

/-- The exposition-format body served on `GET /metrics`, structured: each
instrument's name, help text and current values; the histogram additionally
exposes one cumulative bucket per boundary and the implicit +Inf bucket,
whose cumulative count equals the total count. -/
structure MetricsBody where
  counterName : String
  counterHelp : String
  counterValue : ℚ
  histName : String
  histHelp : String
  histBuckets : List (ℚ × ℕ)
  histInfCount : ℕ
  histSum : ℚ
  histCount : ℕ
deriving DecidableEq

/-- An HTTP response of the exposition endpoint. -/
structure Response where
  status : ℕ
  body : MetricsBody
deriving DecidableEq

/-- Modelled from the spec: rendering reads the registry and serializes the
current values of all registered instruments (the format encoder of
`promhttp` is library code outside `src/`). -/
def render (s : AppState) : MetricsBody :=
  { counterName := s.requestsTotal.name
    counterHelp := s.requestsTotal.help
    counterValue := s.requestsTotal.value
    histName := s.requestDuration.name
    histHelp := s.requestDuration.help
    histBuckets := s.requestDuration.boundaries.zip s.requestDuration.bucketCounts
    histInfCount := s.requestDuration.count
    histSum := s.requestDuration.sum
    histCount := s.requestDuration.count }

/-- Modelled from the spec: `promhttp.Handler()` (`main.go` line 40) serves
each `GET /metrics` by rendering the current state with status 200; it is
stateless per request and has no side effect on the instrument state. -/
def handleMetrics (s : AppState) : Response × AppState :=
  (⟨200, render s⟩, s)

/-- The route table installed by `main` (`main.go` line 40): a single path. -/
def routes : List String := ["/metrics"]

/-- The fixed TCP port of `http.ListenAndServe(":8080", nil)`
(`main.go` line 41). -/
def listenPort : ℕ := 8080

/-- Modelled from the spec: the Registry holds the names of the registered
instruments; an instrument must be registered before it is exposed. -/
abbrev Registry := List String

/-- Modelled from the spec: registering a name fails when an instrument with
the same name is already registered, and otherwise appends it. -/
def registerName (r : Registry) (n : String) : Except String Registry :=
  if n ∈ r then
    Except.error ("duplicate metrics collector registration attempted: " ++ n)
  else
    Except.ok (r ++ [n])

/-- A fatal process termination: a non-zero exit code and a diagnostic
message on the error stream. -/
structure FatalExit where
  exitCode : ℕ
  message : String
deriving DecidableEq

/-- Modelled from the spec: `prometheus.MustRegister` (`main.go` lines 25-26)
panics on registration failure, terminating the process with a non-zero exit
and the diagnostic message; it never retries and never continues silently. -/
def mustRegister (r : Registry) (n : String) : Except FatalExit Registry :=
  match registerName r n with
  | Except.error e => Except.error ⟨2, e⟩
  | Except.ok r2 => Except.ok r2

/-- The successive steps the process performs at startup. -/
inductive StartupStep where
  | registerInstrument (name : String)
  | launchUpdater
  | handleRoute (path : String)
  | listen (port : ℕ)
deriving DecidableEq

/-- Whether a startup step is a metric registration. -/
def StartupStep.isRegistration : StartupStep → Bool
  | StartupStep.registerInstrument _ => true
  | _ => false

/-- The startup order of the program: `init` (`main.go` lines 24-27) runs
before `main` (`main.go` lines 37-41), which launches the updater, installs
the route and only then starts listening. -/
def startupSequence : List StartupStep :=
  [StartupStep.registerInstrument "requests_total",
   StartupStep.registerInstrument "request_duration_seconds",
   StartupStep.launchUpdater,
   StartupStep.handleRoute "/metrics",
   StartupStep.listen listenPort]

/-- The possible outcomes of attempting to bind the listening socket. -/
inductive BindOutcome where
  | bound
  | inUse (errMsg : String)
deriving DecidableEq

/-- The externally observable state of the process after startup. -/
inductive ProcessState where
  | serving (port : ℕ)
  | exited (code : ℕ) (message : String)
deriving DecidableEq

/-- Modelled from the spec: `log.Fatal` prints its message to the error
stream and exits the process with the non-zero code 1. -/
def logFatal (msg : String) : ProcessState :=
  ProcessState.exited 1 msg

/-- Modelled from the spec: `http.ListenAndServe(":8080", nil)` serves
forever when the port binds and otherwise returns the bind error, which
`main` (`main.go` line 41) passes straight to `log.Fatal`. -/
def runServer : BindOutcome → ProcessState
  | BindOutcome.bound => ProcessState.serving listenPort
  | BindOutcome.inUse e => logFatal e

/-- The state of the program after n complete cycles of `updateMetrics`,
given the wall clock (in nanoseconds) read by each cycle; the trace is total:
it is defined for every n, so the loop never terminates and never fails. -/
def loopState (times : ℕ → ℤ) : ℕ → AppState
  | 0 => initialState
  | n + 1 => updateCycle (times n) (loopState times n)

/-- The phases of one loop body iteration. -/
inductive LoopPhase where
  | incCounter
  | observeDuration
  | sleep
deriving DecidableEq

/-- The loop body in source order (`main.go` lines 31-33): increment, then
observe, then sleep. -/
def cycleBody : List LoopPhase :=
  [LoopPhase.incCounter, LoopPhase.observeDuration, LoopPhase.sleep]

/-- The elapsed offset (in seconds, mutations taking no time) at which cycle
n performs its mutations: the body mutates first and sleeps last, so cycle 0
mutates immediately at offset 0 and each later cycle starts one sleep later. -/
def cycleStart : ℕ → ℕ
  | 0 => 0
  | n + 1 => cycleStart n + sleepSeconds

theorem runCycles_nil (s : AppState) : runCycles [] s = s := rfl

theorem runCycles_cons (t : ℤ) (ts : List ℤ) (s : AppState) :
    runCycles (t :: ts) s = runCycles ts (updateCycle t s) := rfl

theorem counter_value_runCycles (ts : List ℤ) (s : AppState) :
    (runCycles ts s).requestsTotal.value =
      s.requestsTotal.value + ts.length := by
  induction ts generalizing s with
  | nil => simp [runCycles_nil]
  | cons t ts ih =>
      rw [runCycles_cons, ih]
      simp [updateCycle, Counter.inc]
      ring

/-- C1: after any sequence of N update cycles starting from the initial state
the counter `requests_total` exposes exactly N; each single cycle adds exactly
1 to the counter, so its value never decreases. -/
theorem counter_equals_completed_cycles (ts : List ℤ) :
    (runCycles ts initialState).requestsTotal.value = (ts.length : ℚ) ∧
    (∀ (t : ℤ) (s : AppState),
        (updateCycle t s).requestsTotal.value = s.requestsTotal.value + 1) ∧
    (∀ (t : ℤ) (s : AppState),
        s.requestsTotal.value ≤ (updateCycle t s).requestsTotal.value) := by
  refine ⟨?_, ?_, ?_⟩
  · rw [counter_value_runCycles]
    simp [initialState, requestsTotal]
  · intro t s
    simp [updateCycle, Counter.inc]
  · intro t s
    simp [updateCycle, Counter.inc]

/-- C2: a single observation of value v into the histogram adds v to the
running sum and 1 to the total count, and for every bucket index the
cumulative count increases by exactly 1 when the bucket boundary is ≥ v and
is unchanged when the boundary is strictly less than v. -/
theorem observe_single_value (h : Histogram) (v : ℚ) :
    (h.observe v).sum = h.sum + v ∧
    (h.observe v).count = h.count + 1 ∧
    ∀ i : ℕ, i < h.boundaries.length → i < h.bucketCounts.length →
      ∃ b c, h.boundaries[i]? = some b ∧ h.bucketCounts[i]? = some c ∧
        (h.observe v).bucketCounts[i]? = some (if v ≤ b then c + 1 else c) := by
  refine ⟨rfl, rfl, ?_⟩
  intro i hi1 hi2
  refine ⟨h.boundaries[i], h.bucketCounts[i], ?_, ?_, ?_⟩
  · exact List.getElem?_eq_getElem hi1
  · exact List.getElem?_eq_getElem hi2
  · show (List.zipWith _ h.boundaries h.bucketCounts)[i]? = _
    rw [List.getElem?_zipWith', List.getElem?_eq_getElem hi1,
      List.getElem?_eq_getElem hi2]
    rfl

/-- C2 witness: observing v = 3 into the fresh histogram adds 3 to the sum,
1 to the count, and increments bucket 7 (boundary 1 < 3: unchanged at 0)
per the theorem, evaluated concretely. -/
theorem observe_single_value_witness :
    (requestDuration.observe 3).sum = requestDuration.sum + 3 ∧
    (requestDuration.observe 3).count = requestDuration.count + 1 ∧
    ∃ b c, requestDuration.boundaries[7]? = some b ∧
      requestDuration.bucketCounts[7]? = some c ∧
      (requestDuration.observe 3).bucketCounts[7]? =
        some (if (3 : ℚ) ≤ b then c + 1 else c) :=
  ⟨(observe_single_value requestDuration 3).1,
   (observe_single_value requestDuration 3).2.1,
   (observe_single_value requestDuration 3).2.2 7 (by decide) (by decide)⟩

/-- C5: serving GET /metrics is read-only and idempotent: a request leaves
the state unchanged, and two consecutive requests with no intervening update
cycle return identical responses. -/
theorem metrics_read_idempotent (s : AppState) :
    (handleMetrics s).2 = s ∧
    (handleMetrics ((handleMetrics s).2)).1 = (handleMetrics s).1 := by
  exact ⟨rfl, rfl⟩

/-- C6: immediately after process start, before any update cycle has run,
GET /metrics returns counter value 0 and histogram total count 0. -/
theorem initial_scrape_zero :
    (handleMetrics initialState).1.body.counterValue = 0 ∧
    (handleMetrics initialState).1.body.histCount = 0 := by
  exact ⟨rfl, rfl⟩
/-- C3: attempting to register a second instrument under an already
registered name is fatal: the process terminates with a non-zero exit and a
diagnostic message naming the duplicate, with no retry; and every
registration step of the startup sequence precedes the listen step, so the
failure happens before the server accepts connections. -/
theorem duplicate_registration_is_fatal :
    (∀ (r : Registry) (n : String), n ∈ r →
        ∃ f, mustRegister r n = Except.error f ∧ f.exitCode ≠ 0 ∧
          f.message =
            "duplicate metrics collector registration attempted: " ++ n) ∧
    (∀ i j : Fin startupSequence.length,
        (startupSequence.get i).isRegistration = true →
        startupSequence.get j = StartupStep.listen listenPort →
        (i : ℕ) < (j : ℕ)) := by
  constructor
  · intro r n hn
    refine ⟨⟨2, "duplicate metrics collector registration attempted: " ++ n⟩,
      ?_, by norm_num, rfl⟩
    simp [mustRegister, registerName, hn]
  · decide

/-- C3 witness: registering `requests_total` into a registry that already
contains it produces a fatal non-zero exit with the duplicate diagnostic,
and the first registration step precedes the listen step. -/
theorem duplicate_registration_is_fatal_witness :
    (∃ f, mustRegister ["requests_total"] "requests_total" = Except.error f ∧
        f.exitCode ≠ 0 ∧
        f.message = "duplicate metrics collector registration attempted: " ++
          "requests_total") ∧
    ((⟨0, by decide⟩ : Fin startupSequence.length) : ℕ) <
      ((⟨4, by decide⟩ : Fin startupSequence.length) : ℕ) :=
  ⟨duplicate_registration_is_fatal.1 ["requests_total"] "requests_total"
      (List.mem_singleton.mpr rfl),
   duplicate_registration_is_fatal.2 ⟨0, by decide⟩ ⟨4, by decide⟩
      (by decide) (by decide)⟩

/-- C4: when the listener cannot bind its port, the process exits with a
non-zero code and the descriptive bind-error message, and is never in the
serving state: it neither continues nor retries. -/
theorem bind_failure_exits_nonzero (e : String) :
    ∃ c, runServer (BindOutcome.inUse e) = ProcessState.exited c e ∧ c ≠ 0 ∧
      ∀ p, runServer (BindOutcome.inUse e) ≠ ProcessState.serving p := by
  exact ⟨1, rfl, one_ne_zero, fun p h => ProcessState.noConfusion h⟩

/-- C7: every cycle of the updater loop increments the counter by exactly 1,
then records one histogram observation equal to the current wall clock in
fractional seconds, then sleeps 5 seconds; the trace is defined after every
cycle, so the loop repeats forever and has no error outcome. -/
theorem updater_cycle_structure (times : ℕ → ℤ) (n : ℕ) :
    loopState times (n + 1) = updateCycle (times n) (loopState times n) ∧
    (loopState times (n + 1)).requestsTotal.value =
      (loopState times n).requestsTotal.value + 1 ∧
    (loopState times (n + 1)).requestDuration =
      (loopState times n).requestDuration.observe (observedSeconds (times n)) ∧
    observedSeconds (times n) = (times n : ℚ) / 10 ^ 9 ∧
    cycleBody = [LoopPhase.incCounter, LoopPhase.observeDuration,
      LoopPhase.sleep] ∧
    sleepSeconds = 5 := by
  refine ⟨rfl, ?_, rfl, rfl, rfl, rfl⟩
  show (updateCycle (times n) (loopState times n)).requestsTotal.value = _
  simp [updateCycle, Counter.inc]

theorem cycleStart_eq (n : ℕ) : cycleStart n = sleepSeconds * n := by
  induction n with
  | zero => rfl
  | succ n ih => simp [cycleStart, ih]; ring

/-- C10: the loop mutates first and sleeps last: cycle 0's mutation happens
at offset 0, the mutations that have occurred after k full sleep intervals
are exactly those of cycles 0..k, and their number is k + 1, not k. -/
theorem first_mutation_precedes_first_sleep :
    cycleBody.getLast? = some LoopPhase.sleep ∧
    cycleStart 0 = 0 ∧
    (∀ k n : ℕ, cycleStart n ≤ sleepSeconds * k ↔ n ≤ k) ∧
    ∀ k : ℕ,
      ((Finset.range (k + 2)).filter
        fun n => cycleStart n ≤ sleepSeconds * k).card = k + 1 := by
  have hiff : ∀ k n : ℕ, cycleStart n ≤ sleepSeconds * k ↔ n ≤ k := by
    intro k n
    rw [cycleStart_eq]
    simp only [sleepSeconds]
    omega
  refine ⟨rfl, rfl, hiff, ?_⟩
  intro k
  have : ((Finset.range (k + 2)).filter
      fun n => cycleStart n ≤ sleepSeconds * k) = Finset.range (k + 1) := by
    ext n
    simp [Finset.mem_filter, Finset.mem_range, hiff]
    omega
  rw [this, Finset.card_range]

theorem runCycles_meta (ts : List ℤ) (s : AppState) :
    (runCycles ts s).requestsTotal.name = s.requestsTotal.name ∧
    (runCycles ts s).requestsTotal.help = s.requestsTotal.help ∧
    (runCycles ts s).requestDuration.name = s.requestDuration.name ∧
    (runCycles ts s).requestDuration.help = s.requestDuration.help ∧
    (runCycles ts s).requestDuration.boundaries =
      s.requestDuration.boundaries := by
  induction ts generalizing s with
  | nil => exact ⟨rfl, rfl, rfl, rfl, rfl⟩
  | cons t ts ih =>
      rw [runCycles_cons]
      have h := ih (updateCycle t s)
      simpa [updateCycle, Counter.inc, Histogram.observe] using h

theorem runCycles_counts_length (ts : List ℤ) (s : AppState)
    (h : s.requestDuration.bucketCounts.length =
      s.requestDuration.boundaries.length) :
    (runCycles ts s).requestDuration.bucketCounts.length =
      (runCycles ts s).requestDuration.boundaries.length := by
  induction ts generalizing s with
  | nil => simpa using h
  | cons t ts ih =>
      rw [runCycles_cons]
      apply ih
      simp [updateCycle, Histogram.observe, List.length_zipWith, h]

/-- C8: the HTTP surface is the single route GET /metrics on port 8080; in
every reachable state the response has status 200 and its body lists
`requests_total` with help "Total number of requests" and
`request_duration_seconds` with help "Duration of requests in seconds" over
the default bucket boundaries, which span 0.005 to 10. -/
theorem http_surface_fixed (ts : List ℤ) :
    routes = ["/metrics"] ∧
    listenPort = 8080 ∧
    (handleMetrics (runCycles ts initialState)).1.status = 200 ∧
    (handleMetrics (runCycles ts initialState)).1.body.counterName =
      "requests_total" ∧
    (handleMetrics (runCycles ts initialState)).1.body.counterHelp =
      "Total number of requests" ∧
    (handleMetrics (runCycles ts initialState)).1.body.histName =
      "request_duration_seconds" ∧
    (handleMetrics (runCycles ts initialState)).1.body.histHelp =
      "Duration of requests in seconds" ∧
    (handleMetrics (runCycles ts initialState)).1.body.histBuckets.map
      Prod.fst = DefBuckets ∧
    DefBuckets.head? = some (1 / 200) ∧
    DefBuckets.getLast? = some 10 := by
  obtain ⟨h1, h2, h3, h4, h5⟩ := runCycles_meta ts initialState
  have hlen := runCycles_counts_length ts initialState
    (by simp [initialState, requestDuration])
  refine ⟨rfl, rfl, rfl, ?_, ?_, ?_, ?_, ?_, rfl, rfl⟩
  · show (runCycles ts initialState).requestsTotal.name = _
    rw [h1]; rfl
  · show (runCycles ts initialState).requestsTotal.help = _
    rw [h2]; rfl
  · show (runCycles ts initialState).requestDuration.name = _
    rw [h3]; rfl
  · show (runCycles ts initialState).requestDuration.help = _
    rw [h4]; rfl
  · show ((runCycles ts initialState).requestDuration.boundaries.zip
      (runCycles ts initialState).requestDuration.bucketCounts).map
        Prod.fst = DefBuckets
    rw [List.map_fst_zip _ _ (le_of_eq hlen.symm), h5]
    rfl

theorem zipWith_keep_of_all_lt (v : ℚ) :
    ∀ (bs : List ℚ) (cs : List ℕ), (∀ b ∈ bs, b < v) →
      cs.length ≤ bs.length →
      List.zipWith (fun b c => if v ≤ b then c + 1 else c) bs cs = cs := by
  intro bs
  induction bs with
  | nil =>
      intro cs hall hlen
      cases cs with
      | nil => rfl
      | cons c cs => simp at hlen
  | cons b bs ih =>
      intro cs hall hlen
      cases cs with
      | nil => rfl
      | cons c cs =>
          simp only [List.zipWith]
          rw [if_neg (not_le.mpr (hall b (List.mem_cons_self b bs)))]
          rw [ih cs (fun x hx => hall x (List.mem_cons_of_mem b hx))
            (by simpa using hlen)]

theorem observe_keeps_zero (h : Histogram) (v : ℚ)
    (hb : h.boundaries = DefBuckets)
    (hc : h.bucketCounts = List.replicate DefBuckets.length 0)
    (hv : (10 : ℚ) < v) :
    (h.observe v).bucketCounts = List.replicate DefBuckets.length 0 := by
  have hub : ∀ b ∈ DefBuckets, b ≤ 10 := by
    intro b hbm
    fin_cases hbm <;> norm_num
  have hall : ∀ b ∈ h.boundaries, b < v := by
    rw [hb]
    intro b hbm
    exact lt_of_le_of_lt (hub b hbm) hv
  have hlen : h.bucketCounts.length ≤ h.boundaries.length := by
    rw [hb, hc]; simp
  show List.zipWith _ h.boundaries h.bucketCounts = _
  rw [zipWith_keep_of_all_lt v h.boundaries h.bucketCounts hall hlen, hc]

theorem runCycles_zero_buckets (ts : List ℤ) (s : AppState)
    (hb : s.requestDuration.boundaries = DefBuckets)
    (hc : s.requestDuration.bucketCounts = List.replicate DefBuckets.length 0)
    (ht : ∀ t ∈ ts, 10 * 10 ^ 9 < t) :
    (runCycles ts s).requestDuration.bucketCounts =
      List.replicate DefBuckets.length 0 ∧
    (runCycles ts s).requestDuration.count =
      s.requestDuration.count + ts.length := by
  induction ts generalizing s with
  | nil => simp [runCycles_nil, hc]
  | cons t ts ih =>
      rw [runCycles_cons]
      have hv : (10 : ℚ) < observedSeconds t := by
        have h1 : ((10 * 10 ^ 9 : ℤ) : ℚ) < (t : ℚ) := by
          exact_mod_cast ht t (List.mem_cons_self t ts)
        rw [observedSeconds, lt_div_iff₀ (by norm_num)]
        push_cast at h1
        linarith
      have hb2 : (updateCycle t s).requestDuration.boundaries = DefBuckets := hb
      have hc2 : (updateCycle t s).requestDuration.bucketCounts =
          List.replicate DefBuckets.length 0 :=
        observe_keeps_zero s.requestDuration (observedSeconds t) hb hc hv
      have ht2 : ∀ x ∈ ts, 10 * 10 ^ 9 < x :=
        fun x hx => ht x (List.mem_cons_of_mem t hx)
      obtain ⟨ha, hcount⟩ := ih (updateCycle t s) hb2 hc2 ht2
      refine ⟨ha, ?_⟩
      rw [hcount]
      show (s.requestDuration.observe (observedSeconds t)).count + ts.length = _
      simp [Histogram.observe, List.length_cons]
      omega

/-- C9: every observed value is the Unix wall clock in seconds (order 10^9),
which exceeds the largest finite default bucket boundary 10, so after any
number of update cycles the cumulative count of every finite bucket of
`request_duration_seconds` is still 0; only the total count (exposed as the
+Inf bucket) and the sum have grown. -/
theorem finite_buckets_stay_zero (ts : List ℤ)
    (ht : ∀ t ∈ ts, 10 * 10 ^ 9 < t) :
    (runCycles ts initialState).requestDuration.bucketCounts =
      List.replicate DefBuckets.length 0 ∧
    (runCycles ts initialState).requestDuration.count = ts.length := by
  have h := runCycles_zero_buckets ts initialState rfl rfl ht
  simpa [initialState, requestDuration] using h

/-- C9 witness: one cycle observing a realistic wall clock (1.7e18
nanoseconds, i.e. the year 2023) leaves every finite bucket at 0 while the
total count becomes 1. -/
theorem finite_buckets_stay_zero_witness :
    (runCycles [1700000000000000000] initialState).requestDuration.bucketCounts
      = List.replicate DefBuckets.length 0 ∧
    (runCycles [1700000000000000000] initialState).requestDuration.count =
      ([1700000000000000000] : List ℤ).length :=
  finite_buckets_stay_zero [1700000000000000000] (by decide)
